import Mathlib

/-!
# Verification of `treadmill/presence.py`

A shallow embedding of the presence module of the treadmill repository
(`src/lib/python/treadmill/presence.py`) together with theorems settling
the specification claims about it.

Conventions of the embedding:
* Local files are modelled explicitly: the per-service finish log is an
  `Option (List FinishRow)` (`none` = the `finished` file does not exist),
  the reported cursor is an `Option Nat` (`none` = the `reported` file
  does not exist).
* The Zookeeper store is modelled as association lists from paths (or
  structured keys) to string values; `zkDelete` removes the key.
* Python exceptions that escape a function are modelled with `Except`.
* External effects (posting an event to the event sink, invoking the
  supervisor with `s6-svc`/`s6-svwait`, writing the cursor file) are
  returned as explicit action lists.
-/

namespace Treadmill

/-- Decidable equality for `Except`, so that concrete runs of the model can
be checked by `decide`. -/
instance {ε α : Type} [DecidableEq ε] [DecidableEq α] : DecidableEq (Except ε α) :=
  fun x y =>
    match x, y with
    | .ok a, .ok b =>
        if h : a = b then .isTrue (by rw [h]) else .isFalse (by simp [h])
    | .error a, .error b =>
        if h : a = b then .isTrue (by rw [h]) else .isFalse (by simp [h])
    | .ok _, .error _ => .isFalse (by simp)
    | .error _, .ok _ => .isFalse (by simp)

/-- One row of the append-only per-service finish log: `timestamp rc signal`. -/
structure FinishRow where
  timestamp : Int
  rc : Int
  sig : Int
deriving DecidableEq, Repr

/-- The exit summary constructed by `ServicePresence.exit_info` from the last
finish-log row (log tail and oom flag are reads of external files, supplied
as parameters). -/
structure ExitInfo where
  hostname : String
  rc : Int
  sig : Int
  output : String
  oom : Bool
  time : Int
deriving DecidableEq, Repr

/-- Model of `ServicePresence.exit_info`: parses the last line of the finish log and
returns the summary with the row count.  Python evaluates `lines[-1]`, which
raises `IndexError` on an empty file; this is the `none` result. -/
def exit_info (hostname logtail : String) (oom : Bool) (lines : List FinishRow) :
    Option (ExitInfo × Nat) :=
  match lines.getLast? with
  | none => none
  | some last =>
      some ({ hostname := hostname, rc := last.rc, sig := last.sig,
              output := logtail, oom := oom, time := last.timestamp },
            lines.length)

/-- Local durable state of one service: the finish log file and the reported
cursor file (`none` = file absent). -/
structure SvcState where
  finished : Option (List FinishRow)
  reported : Option Nat
deriving DecidableEq, Repr

/-- Exceptions escaping `update_exit_status`. -/
inductive UESError where
  | indexError
deriving DecidableEq, Repr

/-- Model of `ServicePresence.update_exit_status`:
1. if the `finished` file does not exist, return;
2. if the manifest has no truthy task id, return;
3. compute `exit_info` (raises `IndexError` when the file is empty);
4. read the `reported` cursor (absent file ⇒ `None`);
5. if the cursor equals the row count, return;
6. otherwise post the exit event `<service>.<rc>.<sig>` and then write the
   row count to the cursor file.
Returns the new state, the posted event payloads, and the cursor values
written, in order. -/
def update_exit_status (task : Option String) (hostname logtail : String)
    (oom : Bool) (serviceName : String) (s : SvcState) :
    Except UESError (SvcState × List String × List Nat) :=
  match s.finished with
  | none => .ok (s, [], [])
  | some lines =>
      if task.getD "" = "" then .ok (s, [], [])
      else
        match exit_info hostname logtail oom lines with
        | none => .error .indexError
        | some (info, count) =>
            if s.reported = some count then .ok (s, [], [])
            else
              let event :=
                serviceName ++ "." ++ toString info.rc ++ "." ++ toString info.sig
              .ok ({ s with reported := some count }, [event], [count])

/-- Model of `ServicePresence._actual_restarts`: row count of the finish log, and the
rate check: with at least 5 rows, the rate is exceeded iff the timestamp of
the 5th-from-last row plus 60 seconds is still after `now`. -/
def actualRestarts (finished : Option (List FinishRow)) (now : Int) : Bool × Nat :=
  match finished with
  | none => (false, 0)
  | some lines =>
      let n := lines.length
      if 5 ≤ n then
        (decide ((lines.getD (n - 5) ⟨0, 0, 0⟩).timestamp + 60 > now), n)
      else
        (false, n)

/-- Per-service environment for `start_service`: the durable files, the
manifest task id, the supervisor state of the service directory, and the
current time (`time.time()`). -/
structure StartEnv where
  finished : Option (List FinishRow)
  reported : Option Nat
  task : Option String
  isDown : Bool
  hasDownFile : Bool
  now : Int
  hostname : String
  logtail : String
  oom : Bool
deriving DecidableEq, Repr

/-- External effects performed by `start_service`, in order. -/
inductive Action where
  /-- `s6-svc -o <svc_dir>` (bring the service up once). -/
  | svcOnce
  /-- posting the `running` event for a service (`report_running`). -/
  | postRunning (svc : String)
  /-- `s6-svwait -u <svc_dir>` (block until the supervisor reports up). -/
  | svwaitUp
  /-- posting an `exit` event with the given payload. -/
  | postExit (payload : String)
  /-- writing the given value to the `reported` cursor file. -/
  | writeReported (n : Nat)
deriving DecidableEq, Repr

/-- Model of `ServicePresence.start_service`:
1. resolve `restart_count` (absent key or non-int value ⇒ 1, value 0 ⇒ 1);
2. compute `(restart_rate_exceeded, actual_restarts)` from the finish log;
3. call `update_exit_status` unconditionally;
4. if the rate is exceeded, fail;
5. if the bound is `-1` or exceeds `actual_restarts`, start the service if
   down (report it running) and wait for up, succeed; else fail.
Returns the success flag, the actions performed, and the cursor state after
the embedded `update_exit_status` call. -/
def start_service (env : StartEnv) (serviceName : String)
    (restartCountRaw : Option Int) :
    Except UESError (Bool × List Action × Option Nat) :=
  let restart_count0 : Int := restartCountRaw.getD 1
  let restart_count : Int := if restart_count0 = 0 then 1 else restart_count0
  let ra := actualRestarts env.finished env.now
  match update_exit_status env.task env.hostname env.logtail env.oom
      serviceName ⟨env.finished, env.reported⟩ with
  | .error e => .error e
  | .ok (s', events, writes) =>
      let acts0 := events.map Action.postExit ++ writes.map Action.writeReported
      if ra.1 then
        .ok (false, acts0, s'.reported)
      else if restart_count = -1 ∨ restart_count > (ra.2 : Int) then
        let startActs :=
          if env.isDown then
            (if env.hasDownFile then [Action.svcOnce] else []) ++
              [Action.postRunning serviceName]
          else []
        .ok (true, acts0 ++ startActs ++ [Action.svwaitUp], s'.reported)
      else
        .ok (false, acts0, s'.reported)

/-- One entry of the manifest's `services` list: name and raw
`restart_count` (`none` = key absent or a non-int value, both resolved to
the default 1 by `start_service`). -/
abbrev ServiceSpec := String × Option Int

/-- Model of `ServicePresence.start_all`: iterate over the services in the
sequence the services dictionary yields them — this module runs on
Python 2, whose plain dicts iterate in implementation-defined hash order,
so the enumeration is supplied as the list argument and theorems quantify
over every enumeration of the dictionary's bindings.  The first
`start_service` failure stops the iteration and returns `(False, name)`;
otherwise `(True, None)`.  Exceptions propagate. -/
def start_all (envs : String → StartEnv) :
    List ServiceSpec → Except UESError (Bool × Option String)
  | [] => .ok (true, none)
  | (name, rc) :: rest =>
      match start_service (envs name) name rc with
      | .error e => .error e
      | .ok (true, _, _) => start_all envs rest
      | .ok (false, _, _) => .ok (false, some name)

/-- Model of `ServicePresence._services`: the manifest's service list poured
into a dictionary keyed by name (a repeated name overwrites the earlier
binding).  The association list represents only the dictionary's contents —
a Python 2 dict carries no usable order, so no theorem reads this list's
order directly: iteration is always an arbitrary `List.Perm` enumeration of
these bindings. -/
def _services (manifest : List ServiceSpec) : List ServiceSpec :=
  manifest.foldl
    (fun d p =>
      if (d.map Prod.fst).contains p.1 then
        d.map (fun q => if q.1 = p.1 then p else q)
      else d ++ [p])
    []

/-- The trace of cursor values written by a sequence of
`update_exit_status` calls for one service.  Each call is given the finish
log visible at that call and the cursor state left by the previous call; an
escaping exception aborts the sequence. -/
def cursorWrites (task : Option String) (hostname logtail : String)
    (oom : Bool) (serviceName : String) :
    Option Nat → List (List FinishRow) → List Nat
  | _, [] => []
  | r, l :: ls =>
      match update_exit_status task hostname logtail oom serviceName
          ⟨some l, r⟩ with
      | .ok (s', _, ws) => ws ++ cursorWrites task hostname logtail oom serviceName s'.reported ls
      | .error _ => []

/-! ## Zookeeper store model -/

/-- Lookup in an association-list store (a Zookeeper `get`; `none` models
`NoNodeError`). -/
def assocGet {K V : Type} [DecidableEq K] : List (K × V) → K → Option V
  | [], _ => none
  | (k, v) :: rest, key => if k = key then some v else assocGet rest key

/-- Deletion of a path from an association-list store (a Zookeeper
`delete`). -/
def zkDelete {K V : Type} [DecidableEq K] (st : List (K × V)) (key : K) :
    List (K × V) :=
  st.filter (fun p => decide (p.1 ≠ key))

/-- Model of `data.split(':')[0]`: the host part of a stored `host:port` value — the
characters before the first `':'` (the whole string when there is none). -/
def hostPart (s : String) : String :=
  String.mk (s.data.takeWhile (fun c => decide (c ≠ ':')))

/-- One entry of the manifest's `endpoints` list.  `name`/`port` are `none`
when the key is absent; `real_port` is the externally advertised port. -/
structure Endpoint where
  name : Option String
  port : Option Int
  real_port : Int
deriving DecidableEq, Repr

/-- The endpoint name used for the store path:
`endpoint.get('name', str(endpoint.get('port', '')))`. -/
def epName (ep : Endpoint) : String :=
  ep.name.getD (match ep.port with | none => "" | some p => toString p)

/-- The store of `running` nodes: workload name ↦ hostname value. -/
abbrev RunStore := List (String × String)

/-- The store of `endpoint` nodes: (workload name, endpoint name) ↦
`host:port` value. -/
abbrev EpStore := List ((String × String) × String)

/-- Model of `EndpointPresence.unregister_running`: read the running node; delete it
only when its value equals this instance's hostname; a missing node is a
no-op. -/
def unregister_running (st : RunStore) (appname hostname : String) : RunStore :=
  match assocGet st appname with
  | none => st
  | some v => if v = hostname then zkDelete st appname else st

/-- The body of the `unregister_endpoints` loop for one endpoint: read the
endpoint node; delete it only when the host part of its value equals this
instance's hostname; a missing node is a no-op. -/
def unregOneEndpoint (st : EpStore) (appname hostname : String)
    (ep : Endpoint) : EpStore :=
  match assocGet st (appname, epName ep) with
  | none => st
  | some v =>
      if hostPart v = hostname then zkDelete st (appname, epName ep) else st

/-- Model of `EndpointPresence.unregister_endpoints`: iterate over the manifest's
endpoints; an empty endpoint name aborts the whole loop (logic-error
branch); otherwise unregister each endpoint in turn. -/
def unregister_endpoints (appname hostname : String) :
    List Endpoint → EpStore → EpStore
  | [], st => st
  | ep :: rest, st =>
      if epName ep = "" then st
      else unregister_endpoints appname hostname rest
        (unregOneEndpoint st appname hostname ep)

/-- The manifest data `kill_node` needs from `/scheduled/<app>`. -/
structure Manifest where
  endpoints : List Endpoint
deriving DecidableEq, Repr

/-- The slice of the Zookeeper tree that `kill_node` touches. -/
structure Zk where
  /-- nodes with a `/servers/<node>` record. -/
  servers : List String
  /-- `/placement/<node>` children (absent key ⇒ `get_children` raises). -/
  placement : List (String × List String)
  /-- `/scheduled/<app>` manifests. -/
  scheduled : List (String × Manifest)
  /-- `/running/<app>` records. -/
  running : RunStore
  /-- endpoint records. -/
  endpoints : EpStore
  /-- nodes with a `/server.presence/<node>` record. -/
  server_presence : List String
deriving DecidableEq, Repr

/-- The body of the `kill_node` loop for one app: read the scheduled
manifest (missing ⇒ "no longer scheduled", a no-op), then unregister the
running node and the endpoints with `hostname := node`. -/
def reapApp (node : String) (z : Zk) (app : String) : Zk :=
  match assocGet z.scheduled app with
  | none => z
  | some m =>
      { z with
        running := unregister_running z.running app node,
        endpoints := unregister_endpoints app node m.endpoints z.endpoints }

/-- Model of `kill_node`: no-op when `/servers/<node>` is absent; otherwise reap
every app placed on the node and delete the node's `/server.presence`
record (`ensure_deleted`).  A missing `/placement/<node>` makes
`get_children` raise, modelled by `.error ()`. -/
def kill_node (z : Zk) (node : String) : Except Unit Zk :=
  if node ∈ z.servers then
    match assocGet z.placement node with
    | none => .error ()
    | some apps =>
        let z1 := apps.foldl (reapApp node) z
        .ok { z1 with
              server_presence := z1.server_presence.filter (fun n => decide (n ≠ node)) }
  else .ok z

/-! ## Ephemeral create with retry -/

/-- The possible outcomes of one `zkutils.create` attempt. -/
inductive CreateResult where
  /-- the create succeeded and returned a value. -/
  | ok (v : Nat)
  /-- `kazoo.client.NodeExistsError`. -/
  | nodeExists
  /-- any other exception. -/
  | err (e : String)
deriving DecidableEq, Repr

/-- The observable outcome of `_create_ephemeral_with_retry`:
the returned value, the number of create attempts made, and the number of
5-second sleeps taken; or the final `Exception('Unable to register')`; or a
propagated non-conflict exception. -/
inductive RetryOutcome where
  | success (v : Nat) (attempts sleeps : Nat)
  | exhausted (attempts sleeps : Nat)
  | raised (e : String) (attempts sleeps : Nat)
deriving DecidableEq, Repr

/-- The loop of `_create_ephemeral_with_retry` with `fuel` iterations left
and `done` attempts already made. -/
def createRetryLoop (results : Nat → CreateResult) : Nat → Nat → RetryOutcome
  | 0, done => .exhausted done done
  | fuel + 1, done =>
      match results done with
      | .ok v => .success v (done + 1) done
      | .nodeExists => createRetryLoop results fuel (done + 1)
      | .err e => .raised e (done + 1) done

/-- Model of `_create_ephemeral_with_retry`: up to 5 attempts; a `NodeExistsError`
sleeps 5 seconds and retries; any other exception propagates; exhausting
the attempts raises `Exception('Unable to register')`.  `results n` is the
outcome of the `n`-th create attempt (0-based). -/
def _create_ephemeral_with_retry (results : Nat → CreateResult) : RetryOutcome :=
  createRetryLoop results 5 0

/-! ## Theorems -/

/-- C10: when the manifest has no truthy task id, `update_exit_status`
returns early without posting any event and without writing the reported
cursor (the returned state is unchanged, independently of the cursor), even
when unreported finish-log rows exist. -/
theorem C10_no_task_disables_reporting (task : Option String)
    (hostname logtail : String) (oom : Bool) (svc : String)
    (lines : List FinishRow) (r : Option Nat) (htask : task.getD "" = "") :
    update_exit_status task hostname logtail oom svc ⟨some lines, r⟩ =
      .ok (⟨some lines, r⟩, [], []) := by
  simp [update_exit_status, htask]

/-- Witness for C10: a workload with no task id, a one-row finish log, and
no cursor written yet — the call is still a silent no-op. -/
theorem C10_witness :
    update_exit_status none "h" "" false "web" ⟨some [⟨1, 0, 0⟩], none⟩ =
      .ok (⟨some [⟨1, 0, 0⟩], none⟩, [], []) :=
  C10_no_task_disables_reporting none "h" "" false "web" [⟨1, 0, 0⟩] none rfl

/-- Counterexample for C5: with a truthy task id and a finish-log file that
exists but is empty, `update_exit_status` raises `IndexError` (from
`lines[-1]` in `exit_info`) instead of returning normally. -/
theorem C5_counterexample :
    update_exit_status (some "t") "h" "" false "web" ⟨some [], none⟩ =
        .error .indexError ∧
      (some "t" : Option String).getD "" ≠ "" := by
  decide

/-- C5 (amended): when the finish-log file does not exist,
`update_exit_status` is a no-op — it returns normally, posts no event and
writes no cursor; when the file exists but holds zero rows and the task id
is truthy, the call instead raises `IndexError`. -/
theorem C5_no_rows (task : Option String) (hostname logtail : String)
    (oom : Bool) (svc : String) (r : Option Nat) :
    (update_exit_status task hostname logtail oom svc ⟨none, r⟩ =
        .ok (⟨none, r⟩, [], [])) ∧
      (task.getD "" ≠ "" →
        update_exit_status task hostname logtail oom svc ⟨some [], r⟩ =
          .error .indexError) := by
  refine ⟨rfl, fun h => ?_⟩
  simp [update_exit_status, h, exit_info]

/-- Witness for C5: the absent-file no-op and the empty-file `IndexError`
at a concrete state. -/
theorem C5_witness :
    (update_exit_status (some "x") "h" "" false "web" ⟨none, some 3⟩ =
        .ok (⟨none, some 3⟩, [], [])) ∧
      update_exit_status (some "x") "h" "" false "web" ⟨some [], some 3⟩ =
        .error .indexError :=
  ⟨(C5_no_rows (some "x") "h" "" false "web" (some 3)).1,
   (C5_no_rows (some "x") "h" "" false "web" (some 3)).2 (by decide)⟩

/-- C1: with a truthy task id, a non-empty finish log and a cursor that
differs from the row count, the first `update_exit_status` call posts
exactly one exit event `<service>.<rc>.<signal>` and writes exactly one
cursor value, the row count; the second call, with no new rows, reads a
cursor equal to the row count and returns without posting or writing. -/
theorem C1_update_exit_status_idempotent (task : Option String)
    (hostname logtail : String) (oom : Bool) (svc : String)
    (lines : List FinishRow) (r : Option Nat) (htask : task.getD "" ≠ "")
    (hne : lines ≠ []) (hr : r ≠ some lines.length) :
    (update_exit_status task hostname logtail oom svc ⟨some lines, r⟩ =
        .ok (⟨some lines, some lines.length⟩,
          [svc ++ "." ++ toString (lines.getLast hne).rc ++ "." ++
            toString (lines.getLast hne).sig],
          [lines.length])) ∧
      update_exit_status task hostname logtail oom svc
          ⟨some lines, some lines.length⟩ =
        .ok (⟨some lines, some lines.length⟩, [], []) := by
  have hlast : lines.getLast? = some (lines.getLast hne) :=
    List.getLast?_eq_getLast_of_ne_nil hne
  constructor
  · simp [update_exit_status, htask, exit_info, hlast, hr]
  · simp [update_exit_status, htask, exit_info, hlast]

/-- Witness for C1: one finish-log row, no cursor yet — the first call
posts `web.0.0` and writes cursor 1, the second call is a no-op. -/
theorem C1_witness :
    (update_exit_status (some "t") "h" "" false "web" ⟨some [⟨5, 0, 0⟩], none⟩ =
        .ok (⟨some [⟨5, 0, 0⟩], some 1⟩, ["web.0.0"], [1])) ∧
      update_exit_status (some "t") "h" "" false "web"
          ⟨some [⟨5, 0, 0⟩], some 1⟩ =
        .ok (⟨some [⟨5, 0, 0⟩], some 1⟩, [], []) :=
  C1_update_exit_status_idempotent (some "t") "h" "" false "web"
    [⟨5, 0, 0⟩] none (by decide) (by decide) (by decide)

/-- If the first `k` attempts (from `done`) conflict and attempt `k`
succeeds, the retry loop returns that success after `done + k + 1` attempts
and `done + k` sleeps. -/
lemma createRetryLoop_ok (results : Nat → CreateResult) :
    ∀ (k fuel done v : Nat), k < fuel →
      (∀ i, i < k → results (done + i) = .nodeExists) →
      results (done + k) = .ok v →
      createRetryLoop results fuel done = .success v (done + k + 1) (done + k) := by
  intro k
  induction k with
  | zero =>
      intro fuel done v hk hpre hok
      obtain ⟨f, rfl⟩ : ∃ f, fuel = f + 1 := ⟨fuel - 1, by omega⟩
      simp only [Nat.add_zero] at hok
      simp [createRetryLoop, hok]
  | succ k ih =>
      intro fuel done v hk hpre hok
      obtain ⟨f, rfl⟩ : ∃ f, fuel = f + 1 := ⟨fuel - 1, by omega⟩
      have h0 : results done = .nodeExists := by
        simpa using hpre 0 (by omega)
      have hrec := ih f (done + 1) v (by omega)
        (fun i hi => by
          have h := hpre (i + 1) (by omega)
          rwa [show done + (i + 1) = done + 1 + i by omega] at h)
        (by rwa [show done + (k + 1) = done + 1 + k by omega] at hok)
      rw [show done + (k + 1) + 1 = done + 1 + k + 1 by omega,
          show done + (k + 1) = done + 1 + k by omega]
      simp only [createRetryLoop, h0]
      exact hrec

/-- If the first `k` attempts (from `done`) conflict and attempt `k` raises
a non-conflict error, the loop propagates it immediately after
`done + k + 1` attempts. -/
lemma createRetryLoop_err (results : Nat → CreateResult) :
    ∀ (k fuel done : Nat) (e : String), k < fuel →
      (∀ i, i < k → results (done + i) = .nodeExists) →
      results (done + k) = .err e →
      createRetryLoop results fuel done = .raised e (done + k + 1) (done + k) := by
  intro k
  induction k with
  | zero =>
      intro fuel done e hk hpre herr
      obtain ⟨f, rfl⟩ : ∃ f, fuel = f + 1 := ⟨fuel - 1, by omega⟩
      simp only [Nat.add_zero] at herr
      simp [createRetryLoop, herr]
  | succ k ih =>
      intro fuel done e hk hpre herr
      obtain ⟨f, rfl⟩ : ∃ f, fuel = f + 1 := ⟨fuel - 1, by omega⟩
      have h0 : results done = .nodeExists := by
        simpa using hpre 0 (by omega)
      have hrec := ih f (done + 1) e (by omega)
        (fun i hi => by
          have h := hpre (i + 1) (by omega)
          rwa [show done + (i + 1) = done + 1 + i by omega] at h)
        (by rwa [show done + (k + 1) = done + 1 + k by omega] at herr)
      rw [show done + (k + 1) + 1 = done + 1 + k + 1 by omega,
          show done + (k + 1) = done + 1 + k by omega]
      simp only [createRetryLoop, h0]
      exact hrec

/-- If every attempt with fuel left conflicts, the loop exhausts its fuel. -/
lemma createRetryLoop_exhausted (results : Nat → CreateResult) :
    ∀ (fuel done : Nat),
      (∀ i, i < fuel → results (done + i) = .nodeExists) →
      createRetryLoop results fuel done = .exhausted (done + fuel) (done + fuel) := by
  intro fuel
  induction fuel with
  | zero => intro done _; simp [createRetryLoop]
  | succ f ih =>
      intro done hpre
      have h0 : results done = .nodeExists := by
        simpa using hpre 0 (by omega)
      have hrec := ih (done + 1)
        (fun i hi => by
          have h := hpre (i + 1) (by omega)
          rwa [show done + (i + 1) = done + 1 + i by omega] at h)
      rw [show done + (f + 1) = done + 1 + f by omega]
      simp only [createRetryLoop, h0]
      exact hrec

/-- C8: `_create_ephemeral_with_retry` makes at most 5 attempts and retries
only on the already-exists conflict: if the first `k < 5` attempts conflict
and attempt `k` succeeds, it returns that result (after `k` sleeps of 5
seconds); if all 5 attempts conflict, it raises the fatal registration
error after exactly 5 attempts; and if attempt `k` fails with any other
error after `k` conflicts, that error propagates immediately after
`k + 1` attempts, without further retries. -/
theorem C8_ephemeral_retry (results : Nat → CreateResult) :
    (∀ k v, k < 5 → (∀ i, i < k → results i = .nodeExists) →
      results k = .ok v →
      _create_ephemeral_with_retry results = .success v (k + 1) k) ∧
    ((∀ i, i < 5 → results i = .nodeExists) →
      _create_ephemeral_with_retry results = .exhausted 5 5) ∧
    (∀ k e, k < 5 → (∀ i, i < k → results i = .nodeExists) →
      results k = .err e →
      _create_ephemeral_with_retry results = .raised e (k + 1) k) := by
  refine ⟨fun k v hk hpre hok => ?_, fun hpre => ?_, fun k e hk hpre herr => ?_⟩
  · have h := createRetryLoop_ok results k 5 0 v hk
      (fun i hi => by simpa using hpre i hi) (by simpa using hok)
    simpa [_create_ephemeral_with_retry] using h
  · have h := createRetryLoop_exhausted results 5 0
      (fun i hi => by simpa using hpre i hi)
    simpa [_create_ephemeral_with_retry] using h
  · have h := createRetryLoop_err results k 5 0 e hk
      (fun i hi => by simpa using hpre i hi) (by simpa using herr)
    simpa [_create_ephemeral_with_retry] using h

/-- Witness for C8: a trace whose second attempt succeeds — the call
returns that result after 2 attempts and 1 sleep. -/
theorem C8_witness :
    _create_ephemeral_with_retry
        (fun i => if i = 1 then .ok 7 else .nodeExists) = .success 7 2 1 :=
  (C8_ephemeral_retry (fun i => if i = 1 then .ok 7 else .nodeExists)).1 1 7
    (by decide) (fun i hi => by simp [show i = 0 from by omega]) rfl

/-- The call `update_exit_status` returns normally whenever the finish log is not an
existing empty file. -/
lemma update_exit_status_ok (task : Option String) (hostname logtail : String)
    (oom : Bool) (svc : String) (f : Option (List FinishRow)) (r : Option Nat)
    (h : f ≠ some []) :
    ∃ s' events writes,
      update_exit_status task hostname logtail oom svc ⟨f, r⟩ =
        .ok (s', events, writes) := by
  match f with
  | none => exact ⟨_, _, _, rfl⟩
  | some lines =>
      have hne : lines ≠ [] := fun hl => h (by rw [hl])
      have hlast : lines.getLast? = some (lines.getLast hne) :=
        List.getLast?_eq_getLast_of_ne_nil hne
      by_cases ht : task.getD "" = ""
      · exact ⟨⟨some lines, r⟩, [], [], by simp [update_exit_status, ht]⟩
      · by_cases hr : r = some lines.length
        · exact ⟨⟨some lines, r⟩, [], [],
            by simp [update_exit_status, ht, exit_info, hlast, hr]⟩
        · exact ⟨⟨some lines, some lines.length⟩,
            [svc ++ "." ++ toString (lines.getLast hne).rc ++ "." ++
              toString (lines.getLast hne).sig], [lines.length],
            by simp [update_exit_status, ht, exit_info, hlast, hr]⟩

/-- The actions contributed by the embedded `update_exit_status` call are
event posts and cursor writes only — never supervisor start/wait actions or
a running report. -/
lemma acts0_no_supervisor (events : List String) (writes : List Nat) :
    Action.svcOnce ∉
        (events.map Action.postExit ++ writes.map Action.writeReported) ∧
      Action.svwaitUp ∉
        (events.map Action.postExit ++ writes.map Action.writeReported) ∧
      ∀ s, Action.postRunning s ∉
        (events.map Action.postExit ++ writes.map Action.writeReported) := by
  refine ⟨?_, ?_, fun s => ?_⟩ <;> simp

/-- Indexing a reversed list with a default value. -/
lemma getD_reverse {α : Type} (l : List α) (d : α) (i : Nat) (h : i < l.length) :
    l.reverse.getD i d = l.getD (l.length - 1 - i) d := by
  rw [List.getD_eq_getElem l.reverse d (by simpa using h),
      List.getD_eq_getElem l d (by omega), List.getElem_reverse]

/-- C2: the rate check of `_actual_restarts` is exceeded iff the finish log
has at least 5 rows and the timestamp of the 5th-from-last row plus 60
seconds is still after `now` (and a missing log never exceeds it); whenever
the rate is exceeded, `start_service` returns failure performing no
supervisor start/wait action and no running report; and when the newest row
is not in the future and the 5 most recent rows span more than 60 seconds,
the rate check does not refuse the start. -/
theorem C2_restart_rate (lines : List FinishRow) (now : Int) (env : StartEnv)
    (svc : String) (rc : Option Int) :
    ((actualRestarts (some lines) now).1 = true ↔
      5 ≤ lines.length ∧
        now < (lines.reverse.getD 4 ⟨0, 0, 0⟩).timestamp + 60) ∧
    ((actualRestarts none now).1 = false) ∧
    ((actualRestarts env.finished env.now).1 = true →
      ∃ acts r, start_service env svc rc = .ok (false, acts, r) ∧
        Action.svcOnce ∉ acts ∧ Action.svwaitUp ∉ acts ∧
        ∀ s, Action.postRunning s ∉ acts) ∧
    (5 ≤ lines.length →
      (lines.reverse.getD 0 ⟨0, 0, 0⟩).timestamp ≤ now →
      60 < (lines.reverse.getD 0 ⟨0, 0, 0⟩).timestamp -
        (lines.reverse.getD 4 ⟨0, 0, 0⟩).timestamp →
      (actualRestarts (some lines) now).1 = false) := by
  refine ⟨?_, rfl, fun hexc => ?_, fun h5 hlast hspan => ?_⟩
  · by_cases h5 : 5 ≤ lines.length
    · rw [getD_reverse lines _ 4 (by omega)]
      simp only [actualRestarts]
      rw [if_pos h5]
      simp only [decide_eq_true_eq]
      rw [show lines.length - 1 - 4 = lines.length - 5 by omega]
      constructor
      · exact fun h => ⟨h5, by omega⟩
      · intro h; omega
    · simp only [actualRestarts]
      rw [if_neg h5]
      simp [h5]
  · match hf : env.finished with
    | none => rw [hf] at hexc; simp [actualRestarts] at hexc
    | some l =>
        have h5 : 5 ≤ l.length := by
          by_contra hlt
          rw [hf] at hexc
          simp only [actualRestarts] at hexc
          rw [if_neg hlt] at hexc
          exact Bool.false_ne_true hexc
        have hnil : env.finished ≠ some [] := by
          rw [hf]; intro hc
          have : l = [] := by injection hc
          subst this; simp at h5
        obtain ⟨s', events, writes, hupd⟩ :=
          update_exit_status_ok env.task env.hostname env.logtail env.oom svc
            env.finished env.reported hnil
        obtain ⟨ha, hb, hc⟩ := acts0_no_supervisor events writes
        refine ⟨events.map Action.postExit ++ writes.map Action.writeReported,
          s'.reported, ?_, ha, hb, hc⟩
        simp only [start_service, hupd, hexc, if_true]
  · rw [getD_reverse lines _ 4 (by omega)] at hspan
    rw [getD_reverse lines _ 0 (by omega)] at hspan hlast
    simp only [actualRestarts]
    rw [if_pos h5]
    simp only [decide_eq_false_iff_not, not_lt]
    have hfifth_le :
        (lines.getD (lines.length - 1 - 4) ⟨0, 0, 0⟩).timestamp + 60 ≤
          (lines.getD (lines.length - 1 - 0) ⟨0, 0, 0⟩).timestamp := by omega
    rw [show lines.length - 5 = lines.length - 1 - 4 by omega]
    omega

/-- Witness for C2: five rows all within the last 60 seconds exceed the
rate, and `start_service` refuses without any supervisor action; the same
five rows spread over more than 60 seconds at the boundary do not. -/
theorem C2_witness :
    ((actualRestarts (some [⟨0, 0, 0⟩, ⟨10, 0, 0⟩, ⟨20, 0, 0⟩, ⟨30, 0, 0⟩,
        ⟨40, 0, 0⟩]) 50).1 = true ↔
      5 ≤ (5 : Nat) ∧ (50 : Int) < 0 + 60) ∧
    (∃ acts r,
      start_service ⟨some [⟨0, 0, 0⟩, ⟨10, 0, 0⟩, ⟨20, 0, 0⟩, ⟨30, 0, 0⟩,
          ⟨40, 0, 0⟩], some 5, some "t", true, true, 50, "h", "", false⟩
          "web" (some (-1)) = .ok (false, acts, r) ∧
        Action.svcOnce ∉ acts ∧ Action.svwaitUp ∉ acts ∧
        ∀ s, Action.postRunning s ∉ acts) ∧
    ((actualRestarts (some [⟨0, 0, 0⟩, ⟨10, 0, 0⟩, ⟨20, 0, 0⟩, ⟨30, 0, 0⟩,
        ⟨70, 0, 0⟩]) 70).1 = false) :=
  ⟨(C2_restart_rate [⟨0, 0, 0⟩, ⟨10, 0, 0⟩, ⟨20, 0, 0⟩, ⟨30, 0, 0⟩,
      ⟨40, 0, 0⟩] 50 ⟨none, none, none, false, false, 0, "", "", false⟩ ""
      none).1,
   (C2_restart_rate [] 0 ⟨some [⟨0, 0, 0⟩, ⟨10, 0, 0⟩, ⟨20, 0, 0⟩,
      ⟨30, 0, 0⟩, ⟨40, 0, 0⟩], some 5, some "t", true, true, 50, "h", "",
      false⟩ "web" (some (-1))).2.2.1 (by decide),
   (C2_restart_rate [⟨0, 0, 0⟩, ⟨10, 0, 0⟩, ⟨20, 0, 0⟩, ⟨30, 0, 0⟩,
      ⟨70, 0, 0⟩] 70 ⟨none, none, none, false, false, 0, "", "", false⟩ ""
      none).2.2.2 (by decide) (by decide) (by decide)⟩

/-- C3: when the restart rate is not exceeded (and the finish log is not an
existing empty file), bound `-1` always starts the service and returns
success regardless of the restart count; bound `0` yields exactly the same
call outcome as bound `1`; and any other bound `b` starts the service and
returns success precisely when `b` is strictly greater than the finish-log
row count (which is what `_actual_restarts` counts), failing otherwise. -/
theorem C3_restart_bound (env : StartEnv) (svc : String) (b : Int) :
    ((actualRestarts env.finished env.now).2 = (env.finished.getD []).length) ∧
    (env.finished ≠ some [] → (actualRestarts env.finished env.now).1 = false →
      ∃ acts r, start_service env svc (some (-1)) = .ok (true, acts, r)) ∧
    (start_service env svc (some 0) = start_service env svc (some 1)) ∧
    (env.finished ≠ some [] → (actualRestarts env.finished env.now).1 = false →
      b ≠ -1 → b ≠ 0 →
      ∃ acts r, start_service env svc (some b) =
        .ok (decide (((env.finished.getD []).length : Int) < b), acts, r)) := by
  have hcount : (actualRestarts env.finished env.now).2 =
      (env.finished.getD []).length := by
    match hf : env.finished with
    | none => simp [actualRestarts]
    | some lines =>
        simp only [actualRestarts, Option.getD_some]
        by_cases h5 : 5 ≤ lines.length
        · rw [if_pos h5]
        · rw [if_neg h5]
  refine ⟨hcount, fun hnil hrate => ?_, rfl, fun hnil hrate hm1 h0 => ?_⟩
  · obtain ⟨s', events, writes, hupd⟩ :=
      update_exit_status_ok env.task env.hostname env.logtail env.oom svc
        env.finished env.reported hnil
    refine ⟨(events.map Action.postExit ++ writes.map Action.writeReported) ++
      (if env.isDown then
        (if env.hasDownFile then [Action.svcOnce] else []) ++
          [Action.postRunning svc]
       else []) ++ [Action.svwaitUp], s'.reported, ?_⟩
    simp [start_service, hupd, hrate]
  · obtain ⟨s', events, writes, hupd⟩ :=
      update_exit_status_ok env.task env.hostname env.logtail env.oom svc
        env.finished env.reported hnil
    by_cases hgt : ((env.finished.getD []).length : Int) < b
    · have hcond : b = -1 ∨ b > ((actualRestarts env.finished env.now).2 : Int) := by
        right; rw [hcount]; exact hgt
      rw [show (decide (((env.finished.getD []).length : Int) < b)) = true from
        decide_eq_true hgt]
      refine ⟨(events.map Action.postExit ++ writes.map Action.writeReported) ++
        (if env.isDown then
          (if env.hasDownFile then [Action.svcOnce] else []) ++
            [Action.postRunning svc]
         else []) ++ [Action.svwaitUp], s'.reported, ?_⟩
      simp [start_service, hupd, hrate, h0, hcond]
    · have hcond : ¬(b = -1 ∨ b > ((actualRestarts env.finished env.now).2 : Int)) := by
        rw [hcount]; push_neg; exact ⟨hm1, not_lt.mp hgt⟩
      rw [show (decide (((env.finished.getD []).length : Int) < b)) = false from
        decide_eq_false hgt]
      refine ⟨events.map Action.postExit ++ writes.map Action.writeReported,
        s'.reported, ?_⟩
      simp [start_service, hupd, hrate, h0, hcond]

/-- Witness for C3: a two-row finish log; bound `-1` succeeds, and bound
`3` succeeds because `2 < 3`. -/
theorem C3_witness :
    ((actualRestarts (some [⟨1, 0, 0⟩, ⟨2, 0, 0⟩]) 100).2 = 2) ∧
    (∃ acts r,
      start_service ⟨some [⟨1, 0, 0⟩, ⟨2, 0, 0⟩], some 2, some "t", true,
          false, 100, "h", "", false⟩ "web" (some (-1)) =
        .ok (true, acts, r)) ∧
    (∃ acts r,
      start_service ⟨some [⟨1, 0, 0⟩, ⟨2, 0, 0⟩], some 2, some "t", true,
          false, 100, "h", "", false⟩ "web" (some 3) =
        .ok (true, acts, r)) := by
  refine ⟨(C3_restart_bound ⟨some [⟨1, 0, 0⟩, ⟨2, 0, 0⟩], some 2, some "t",
      true, false, 100, "h", "", false⟩ "web" 3).1, ?_, ?_⟩
  · exact (C3_restart_bound ⟨some [⟨1, 0, 0⟩, ⟨2, 0, 0⟩], some 2, some "t",
      true, false, 100, "h", "", false⟩ "web" 3).2.1 (by decide) (by decide)
  · obtain ⟨acts, r, h⟩ := (C3_restart_bound ⟨some [⟨1, 0, 0⟩, ⟨2, 0, 0⟩],
      some 2, some "t", true, false, 100, "h", "", false⟩ "web" 3).2.2.2
      (by decide) (by decide) (by decide) (by decide)
    exact ⟨acts, r, h⟩

/-- Every cursor value written by one `update_exit_status` call equals the
row count of the finish log that call saw (and at most one value is
written). -/
lemma update_exit_status_writes (task : Option String)
    (hostname logtail : String) (oom : Bool) (svc : String)
    (f : Option (List FinishRow)) (r : Option Nat) (s' : SvcState)
    (ev : List String) (ws : List Nat)
    (h : update_exit_status task hostname logtail oom svc ⟨f, r⟩ =
      .ok (s', ev, ws)) :
    ws = [] ∨ ws = [(f.getD []).length] := by
  match f with
  | none =>
      simp only [update_exit_status, Except.ok.injEq, Prod.mk.injEq] at h
      exact Or.inl h.2.2.symm
  | some lines =>
      by_cases ht : task.getD "" = ""
      · simp only [update_exit_status, ht, if_true, Except.ok.injEq,
          Prod.mk.injEq] at h
        exact Or.inl h.2.2.symm
      · match hnil : lines with
        | [] => simp [update_exit_status, ht, exit_info] at h
        | a :: tl =>
            have hne : a :: tl ≠ ([] : List FinishRow) := by simp
            have hlast : (a :: tl).getLast? = some ((a :: tl).getLast hne) :=
              List.getLast?_eq_getLast_of_ne_nil hne
            by_cases hr : r = some (a :: tl).length
            · have hred : update_exit_status task hostname logtail oom svc
                  ⟨some (a :: tl), r⟩ = .ok (⟨some (a :: tl), r⟩, [], []) := by
                simp [update_exit_status, ht, exit_info, hlast, hr]
              rw [hred] at h
              simp only [Except.ok.injEq, Prod.mk.injEq] at h
              exact Or.inl h.2.2.symm
            · have hred : update_exit_status task hostname logtail oom svc
                  ⟨some (a :: tl), r⟩ =
                  .ok (⟨some (a :: tl), some (a :: tl).length⟩,
                    [svc ++ "." ++ toString ((a :: tl).getLast hne).rc ++ "." ++
                      toString ((a :: tl).getLast hne).sig],
                    [(a :: tl).length]) := by
                have hr' : ¬r = some (tl.length + 1) := by simpa using hr
                simp [update_exit_status, ht, exit_info, hlast, hr']
              rw [hred] at h
              simp only [Except.ok.injEq, Prod.mk.injEq] at h
              exact Or.inr (by rw [← h.2.2, Option.getD_some])

/-- Every value in the cursor-write trace is the row count of one of the
logs in the trace. -/
lemma mem_cursorWrites (task : Option String) (hostname logtail : String)
    (oom : Bool) (svc : String) :
    ∀ (logs : List (List FinishRow)) (r : Option Nat) (w : Nat),
      w ∈ cursorWrites task hostname logtail oom svc r logs →
      ∃ l ∈ logs, w = l.length := by
  intro logs
  induction logs with
  | nil => intro r w hw; simp [cursorWrites] at hw
  | cons l ls ih =>
      intro r w hw
      cases hupd : update_exit_status task hostname logtail oom svc
          ⟨some l, r⟩ with
      | error e => simp [cursorWrites, hupd] at hw
      | ok out =>
          obtain ⟨s', ev, ws⟩ := out
          simp only [cursorWrites, hupd, List.mem_append] at hw
          rcases hw with hw1 | hw2
          · rcases update_exit_status_writes task hostname logtail oom svc
              (some l) r s' ev ws hupd with hws | hws
            · rw [hws] at hw1; simp at hw1
            · rw [hws] at hw1
              simp only [List.mem_singleton] at hw1
              exact ⟨l, List.mem_cons_self l ls, by simpa using hw1⟩
          · obtain ⟨l', h1, h2⟩ := ih s'.reported w hw2
            exact ⟨l', List.mem_cons_of_mem l h1, h2⟩

/-- C9: assuming the finish log is append-only — each log in the sequence
of calls is a prefix of every later one — the sequence of cursor values
written by any sequence of `update_exit_status` calls is non-decreasing:
every written value is greater than or equal to every earlier one. -/
theorem C9_cursor_monotone (task : Option String) (hostname logtail : String)
    (oom : Bool) (svc : String) (r0 : Option Nat)
    (logs : List (List FinishRow))
    (happend : List.Pairwise (· <+: ·) logs) :
    List.Pairwise (· ≤ ·) (cursorWrites task hostname logtail oom svc r0 logs) := by
  induction logs generalizing r0 with
  | nil => simp [cursorWrites]
  | cons l ls ih =>
      rw [List.pairwise_cons] at happend
      obtain ⟨hhead, htail⟩ := happend
      cases hupd : update_exit_status task hostname logtail oom svc
          ⟨some l, r0⟩ with
      | error e => simp [cursorWrites, hupd]
      | ok out =>
          obtain ⟨s', ev, ws⟩ := out
          have hrec := ih s'.reported htail
          have heq : cursorWrites task hostname logtail oom svc r0 (l :: ls) =
              ws ++ cursorWrites task hostname logtail oom svc s'.reported ls := by
            simp [cursorWrites, hupd]
          rw [heq, List.pairwise_append]
          refine ⟨?_, hrec, ?_⟩
          · rcases update_exit_status_writes task hostname logtail oom svc
              (some l) r0 s' ev ws hupd with hws | hws <;> rw [hws] <;> simp
          · intro a ha b hb
            rcases update_exit_status_writes task hostname logtail oom svc
              (some l) r0 s' ev ws hupd with hws | hws
            · rw [hws] at ha; simp at ha
            · rw [hws] at ha
              simp only [List.mem_singleton, Option.getD_some] at ha
              obtain ⟨l', hl', rfl⟩ := mem_cursorWrites task hostname logtail
                oom svc ls s'.reported b hb
              have := (hhead l' hl').length_le
              omega

/-- Witness for C9: a two-call trace over an append-only log writes the
non-decreasing cursor sequence `[1, 2]`. -/
theorem C9_witness :
    List.Pairwise (· ≤ ·)
      (cursorWrites (some "t") "h" "" false "web" none
        [[⟨1, 0, 0⟩], [⟨1, 0, 0⟩, ⟨2, 1, 0⟩]]) :=
  C9_cursor_monotone (some "t") "h" "" false "web" none
    [[⟨1, 0, 0⟩], [⟨1, 0, 0⟩, ⟨2, 1, 0⟩]] (by decide)

/-- When every service's start succeeds, `start_all` returns `(True, None)`. -/
lemma start_all_success (envs : String → StartEnv) :
    ∀ services : List ServiceSpec,
      (∀ p ∈ services, ∃ acts r,
        start_service (envs p.1) p.1 p.2 = .ok (true, acts, r)) →
      start_all envs services = .ok (true, none) := by
  intro services
  induction services with
  | nil => intro _; rfl
  | cons p rest ih =>
      intro hall
      obtain ⟨acts, r, hp⟩ := hall p (List.mem_cons_self p rest)
      obtain ⟨name, rc⟩ := p
      rw [start_all, hp]
      exact ih fun q hq => hall q (List.mem_cons_of_mem _ hq)

/-- When every service before `f` succeeds and `f` fails, `start_all`
returns `(False, f)`. -/
lemma start_all_first_failure (envs : String → StartEnv) (f : String)
    (rcf : Option Int) (post : List ServiceSpec) :
    ∀ pre : List ServiceSpec,
      (∀ p ∈ pre, ∃ acts r,
        start_service (envs p.1) p.1 p.2 = .ok (true, acts, r)) →
      (∃ acts r, start_service (envs f) f rcf = .ok (false, acts, r)) →
      start_all envs (pre ++ (f, rcf) :: post) = .ok (false, some f) := by
  intro pre
  induction pre with
  | nil =>
      intro _ hf
      obtain ⟨acts, r, hf⟩ := hf
      rw [List.nil_append, start_all, hf]
  | cons p rest ih =>
      intro hpre hf
      obtain ⟨acts, r, hp⟩ := hpre p (List.mem_cons_self p rest)
      obtain ⟨name, rc⟩ := p
      rw [List.cons_append, start_all, hp]
      exact ih (fun q hq => hpre q (List.mem_cons_of_mem _ hq)) hf

/-- When `start_all` reports overall success, every service's start
succeeded. -/
lemma start_all_success_rev (envs : String → StartEnv) :
    ∀ services : List ServiceSpec,
      start_all envs services = .ok (true, none) →
      ∀ p ∈ services, ∃ acts r,
        start_service (envs p.1) p.1 p.2 = .ok (true, acts, r) := by
  intro services
  induction services with
  | nil => intro _ p hp; simp at hp
  | cons p rest ih =>
      intro h q hq
      obtain ⟨name, rc⟩ := p
      cases hss : start_service (envs name) name rc with
      | error e => rw [start_all, hss] at h; cases h
      | ok out =>
          obtain ⟨b, acts, r⟩ := out
          cases b with
          | false =>
              rw [start_all, hss] at h
              simp only [Except.ok.injEq, Prod.mk.injEq] at h
              cases h.1
          | true =>
              rw [start_all, hss] at h
              rcases List.mem_cons.mp hq with hq1 | hq2
              · subst hq1; exact ⟨acts, r, hss⟩
              · exact ih h q hq2

/-- Counterexample for C6: the services dictionary built from the manifest
`[a, b]` admits the enumeration `[b, a]` — it is a permutation of the
dictionary's bindings, and a CPython 2 plain dict iterates in
implementation-defined hash order, not insertion order.  With both services
failing, the code under that enumeration returns `(False, b)`, not the
manifest-first `(False, a)` that the claim's manifest-order reading
predicts: the reported result depends on the enumeration. -/
theorem C6_counterexample :
    (([("b", some 1), ("a", some 1)] : List ServiceSpec).Perm
      (_services [("a", some 1), ("b", some 1)])) ∧
    start_all
        (fun _ => ⟨some [⟨1, 0, 0⟩], some 1, some "t", true, false, 100,
          "h", "", false⟩)
        [("b", some 1), ("a", some 1)] = .ok (false, some "b") ∧
    start_all
        (fun _ => ⟨some [⟨1, 0, 0⟩], some 1, some "t", true, false, 100,
          "h", "", false⟩)
        [("a", some 1), ("b", some 1)] = .ok (false, some "a") ∧
    (some "b" ≠ some "a") := by
  refine ⟨by decide, by decide, by decide, by decide⟩

/-- C6 (amended): `start_all` attempts the services in the dictionary's
iteration order — implementation-defined on Python 2, an arbitrary
enumeration of the bindings built from the manifest's ordered service list
(a repeated name overwriting the earlier binding).  For every such
enumeration: (i) when every service starts, it returns `(True, None)`;
(ii) the first `start_service` failure aborts the sequence and the failed
service's name is returned, with the environments of the services after it
never consulted; (iii) it returns `(True, None)` only when every service's
start succeeded. -/
theorem C6_start_all (manifest : List ServiceSpec) (envs : String → StartEnv)
    (order : List ServiceSpec)
    (horder : order.Perm (_services manifest)) :
    ((∀ p ∈ _services manifest, ∃ acts r,
        start_service (envs p.1) p.1 p.2 = .ok (true, acts, r)) →
      start_all envs order = .ok (true, none)) ∧
    (∀ pre f rcf post, order = pre ++ (f, rcf) :: post →
      (∀ p ∈ pre, ∃ acts r,
        start_service (envs p.1) p.1 p.2 = .ok (true, acts, r)) →
      (∃ acts r, start_service (envs f) f rcf = .ok (false, acts, r)) →
      ∀ envs' : String → StartEnv,
        (∀ p ∈ pre, envs' p.1 = envs p.1) → envs' f = envs f →
        start_all envs' order = .ok (false, some f)) ∧
    (start_all envs order = .ok (true, none) →
      ∀ p ∈ _services manifest, ∃ acts r,
        start_service (envs p.1) p.1 p.2 = .ok (true, acts, r)) := by
  refine ⟨fun hall => ?_, fun pre f rcf post hsplit hpre hf envs' hpre' hf' => ?_,
    fun h => ?_⟩
  · exact start_all_success envs order
      fun p hp => hall p (horder.mem_iff.mp hp)
  · rw [hsplit]
    exact start_all_first_failure envs' f rcf post pre
      (fun p hp => by rw [hpre' p hp]; exact hpre p hp)
      (by rw [hf']; exact hf)
  · intro p hp
    exact start_all_success_rev envs order h p (horder.mem_iff.mpr hp)

/-- Witness for C6: the dictionary of a two-service manifest enumerated in
the reversed order; its head service fails, so `start_all` reports that
service regardless of the other service's environment. -/
theorem C6_witness :
    start_all
        (fun _ => ⟨some [⟨1, 0, 0⟩], some 1, some "t", true, false, 100,
          "h", "", false⟩)
        [("db", some 1), ("web", some 1)] = .ok (false, some "db") :=
  (C6_start_all [("web", some 1), ("db", some 1)]
    (fun _ => ⟨some [⟨1, 0, 0⟩], some 1, some "t", true, false, 100,
      "h", "", false⟩)
    [("db", some 1), ("web", some 1)] (by decide)).2.1
    [] "db" (some 1) [("web", some 1)] rfl (by simp)
    ⟨[], some 1, by decide⟩
    (fun _ => ⟨some [⟨1, 0, 0⟩], some 1, some "t", true, false, 100,
      "h", "", false⟩) (by simp) rfl

/-- What deletion does to lookups: the deleted key reads as absent, every
other key is unaffected. -/
lemma assocGet_zkDelete {K V : Type} [DecidableEq K] (st : List (K × V))
    (k' k : K) :
    assocGet (zkDelete st k') k = if k = k' then none else assocGet st k := by
  induction st with
  | nil => simp [zkDelete, assocGet]
  | cons p rest ih =>
      obtain ⟨a, v⟩ := p
      by_cases hak : a = k'
      · subst hak
        have hdel : zkDelete ((a, v) :: rest) a = zkDelete rest a := by
          simp [zkDelete]
        rw [hdel, ih]
        by_cases hk : k = a
        · subst hk; simp
        · rw [if_neg hk, if_neg hk]
          simp [assocGet, Ne.symm hk]
      · have hdel : zkDelete ((a, v) :: rest) k' = (a, v) :: zkDelete rest k' := by
          simp [zkDelete, hak]
        rw [hdel]
        by_cases hk : a = k
        · subst hk
          simp [assocGet, hak]
        · simp only [assocGet, if_neg hk]
          rw [ih]

/-- Counterexample for C4: hostname `h`, one endpoint with `real_port` 1,
so the value this instance believes it wrote is `h:1`; the stored value is
`h:2`, which differs from it — yet `unregister_endpoints` deletes the
record, because the code compares only the host part before the `':'`. -/
theorem C4_counterexample :
    unregister_endpoints "app" "h" [⟨some "ep", some 80, 1⟩]
        [(("app", "ep"), "h:2")] = [] ∧
      ("h" ++ ":" ++ toString (1 : Int)) ≠ "h:2" := by
  constructor
  · rfl
  · decide

/-- C4 (amended): `unregister_running` deletes the running record only if
its stored value equals this instance's hostname; `unregister_endpoints`
deletes an endpoint record only if the host part of its stored value — the
substring before the first `':'` — equals this instance's hostname,
regardless of the port part; in both operations a missing node is treated
as already-unregistered and a non-matching value performs no delete. -/
theorem C4_ownership_unregister (st : RunStore) (est : EpStore)
    (app hostname : String) (ep : Endpoint) (hep : epName ep ≠ "") :
    ((assocGet st app = none → unregister_running st app hostname = st) ∧
     (∀ v, assocGet st app = some v → v ≠ hostname →
        unregister_running st app hostname = st) ∧
     (assocGet st app = some hostname →
        unregister_running st app hostname = zkDelete st app ∧
          assocGet (unregister_running st app hostname) app = none)) ∧
    ((assocGet est (app, epName ep) = none →
        unregister_endpoints app hostname [ep] est = est) ∧
     (∀ v, assocGet est (app, epName ep) = some v → hostPart v ≠ hostname →
        unregister_endpoints app hostname [ep] est = est) ∧
     (∀ v, assocGet est (app, epName ep) = some v → hostPart v = hostname →
        unregister_endpoints app hostname [ep] est =
            zkDelete est (app, epName ep) ∧
          assocGet (unregister_endpoints app hostname [ep] est)
            (app, epName ep) = none)) := by
  refine ⟨⟨fun hn => ?_, fun v hv hne => ?_, fun hv => ?_⟩,
    ⟨fun hn => ?_, fun v hv hne => ?_, fun v hv hmatch => ?_⟩⟩
  · simp [unregister_running, hn]
  · simp [unregister_running, hv, hne]
  · have heq : unregister_running st app hostname = zkDelete st app := by
      simp [unregister_running, hv]
    exact ⟨heq, by rw [heq, assocGet_zkDelete, if_pos rfl]⟩
  · simp [unregister_endpoints, hep, unregOneEndpoint, hn]
  · simp [unregister_endpoints, hep, unregOneEndpoint, hv, hne]
  · have heq : unregister_endpoints app hostname [ep] est =
        zkDelete est (app, epName ep) := by
      simp [unregister_endpoints, hep, unregOneEndpoint, hv, hmatch]
    exact ⟨heq, by rw [heq, assocGet_zkDelete, if_pos rfl]⟩

/-- Witness for C4 (amended): a matching running record is deleted, a
non-matching one is kept, and an endpoint stored under another host is
kept. -/
theorem C4_witness :
    (unregister_running [("app", "h")] "app" "h" = [] ∧
      assocGet (unregister_running [("app", "h")] "app" "h") "app" = none) ∧
    (unregister_running [("app", "other")] "app" "h" = [("app", "other")]) ∧
    (unregister_endpoints "app" "h" [⟨some "ep", some 80, 1⟩]
        [(("app", "ep"), "other:1")] = [(("app", "ep"), "other:1")]) := by
  refine ⟨?_, ?_, ?_⟩
  · have h := ((C4_ownership_unregister [("app", "h")] [] "app" "h"
      ⟨some "ep", some 80, 1⟩ (by decide)).1).2.2 rfl
    exact ⟨h.1.trans (by rfl), h.2⟩
  · exact ((C4_ownership_unregister [("app", "other")] [] "app" "h"
      ⟨some "ep", some 80, 1⟩ (by decide)).1).2.1 "other" rfl (by decide)
  · exact ((C4_ownership_unregister [] [(("app", "ep"), "other:1")] "app" "h"
      ⟨some "ep", some 80, 1⟩ (by decide)).2).2.1 "other:1" rfl (by decide)

/-- Deletion only: `unregister_running` never adds or rewrites entries: any surviving
lookup was already there. -/
lemma unregister_running_mono (st : RunStore) (app node : String) (k : String)
    (v : String) (h : assocGet (unregister_running st app node) k = some v) :
    assocGet st k = some v := by
  unfold unregister_running at h
  cases hg : assocGet st app with
  | none => rwa [hg] at h
  | some w =>
      simp only [hg] at h
      by_cases hw : w = node
      · rw [if_pos hw, assocGet_zkDelete] at h
        by_cases hk : k = app
        · rw [if_pos hk] at h; cases h
        · rwa [if_neg hk] at h
      · rwa [if_neg hw] at h

/-- After `unregister_running`, the running record for the app no longer
carries this node's hostname. -/
lemma unregister_running_fixed (st : RunStore) (app node : String) (v : String)
    (h : assocGet (unregister_running st app node) app = some v) : v ≠ node := by
  unfold unregister_running at h
  cases hg : assocGet st app with
  | none => simp only [hg] at h; cases h
  | some w =>
      simp only [hg] at h
      by_cases hw : w = node
      · rw [if_pos hw, assocGet_zkDelete, if_pos rfl] at h; cases h
      · rw [if_neg hw, hg] at h
        cases h; exact hw

/-- Fixpoint: `unregister_running` is the identity once the record no longer matches. -/
lemma unregister_running_id (st : RunStore) (app node : String)
    (h : ∀ v, assocGet st app = some v → v ≠ node) :
    unregister_running st app node = st := by
  unfold unregister_running
  cases hg : assocGet st app with
  | none => simp only [hg]
  | some w => simp only [hg]; rw [if_neg (h w hg)]

/-- Deletion only: `unregOneEndpoint` never adds or rewrites entries. -/
lemma unregOneEndpoint_mono (st : EpStore) (app node : String) (ep : Endpoint)
    (k : String × String) (v : String)
    (h : assocGet (unregOneEndpoint st app node ep) k = some v) :
    assocGet st k = some v := by
  unfold unregOneEndpoint at h
  cases hg : assocGet st (app, epName ep) with
  | none => rwa [hg] at h
  | some w =>
      simp only [hg] at h
      by_cases hw : hostPart w = node
      · rw [if_pos hw, assocGet_zkDelete] at h
        by_cases hk : k = (app, epName ep)
        · rw [if_pos hk] at h; cases h
        · rwa [if_neg hk] at h
      · rwa [if_neg hw] at h

/-- After `unregOneEndpoint`, the endpoint record no longer carries this
node as its host part. -/
lemma unregOneEndpoint_fixed (st : EpStore) (app node : String) (ep : Endpoint)
    (v : String)
    (h : assocGet (unregOneEndpoint st app node ep) (app, epName ep) = some v) :
    hostPart v ≠ node := by
  unfold unregOneEndpoint at h
  cases hg : assocGet st (app, epName ep) with
  | none => simp only [hg] at h; cases h
  | some w =>
      simp only [hg] at h
      by_cases hw : hostPart w = node
      · rw [if_pos hw, assocGet_zkDelete, if_pos rfl] at h; cases h
      · rw [if_neg hw, hg] at h
        cases h; exact hw

/-- Fixpoint: `unregOneEndpoint` is the identity once the record no longer matches. -/
lemma unregOneEndpoint_id (st : EpStore) (app node : String) (ep : Endpoint)
    (h : ∀ v, assocGet st (app, epName ep) = some v → hostPart v ≠ node) :
    unregOneEndpoint st app node ep = st := by
  unfold unregOneEndpoint
  cases hg : assocGet st (app, epName ep) with
  | none => simp only [hg]
  | some w => simp only [hg]; rw [if_neg (h w hg)]

/-- A store is settled for an app's endpoint list when every endpoint the
`unregister_endpoints` loop would reach (its effective prefix, up to an
empty-name abort) no longer stores a value whose host part is this node. -/
def epFixed (app node : String) : List Endpoint → EpStore → Prop
  | [], _ => True
  | ep :: rest, st =>
      if epName ep = "" then True
      else
        (∀ v, assocGet st (app, epName ep) = some v → hostPart v ≠ node) ∧
          epFixed app node rest st

/-- Deletion only: `unregister_endpoints` never adds or rewrites entries. -/
lemma unregister_endpoints_mono (app node : String) :
    ∀ (eps : List Endpoint) (st : EpStore) (k : String × String) (v : String),
      assocGet (unregister_endpoints app node eps st) k = some v →
      assocGet st k = some v := by
  intro eps
  induction eps with
  | nil => intro st k v h; exact h
  | cons ep rest ih =>
      intro st k v h
      by_cases hn : epName ep = ""
      · rwa [unregister_endpoints, if_pos hn] at h
      · rw [unregister_endpoints, if_neg hn] at h
        exact unregOneEndpoint_mono st app node ep k v
          (ih (unregOneEndpoint st app node ep) k v h)

/-- Settledness is antitone under stores that only lost entries. -/
lemma epFixed_mono (app node : String) :
    ∀ (eps : List Endpoint) (st st' : EpStore),
      (∀ k v, assocGet st' k = some v → assocGet st k = some v) →
      epFixed app node eps st → epFixed app node eps st' := by
  intro eps
  induction eps with
  | nil => intro st st' _ _; trivial
  | cons ep rest ih =>
      intro st st' hmono hfix
      by_cases hn : epName ep = ""
      · rw [epFixed, if_pos hn]; trivial
      · rw [epFixed, if_neg hn] at hfix ⊢
        exact ⟨fun v hv hh => hfix.1 v (hmono _ v hv) hh,
          ih st st' hmono hfix.2⟩

/-- Running the loop settles the store for its endpoint list. -/
lemma unregister_endpoints_fixed (app node : String) :
    ∀ (eps : List Endpoint) (st : EpStore),
      epFixed app node eps (unregister_endpoints app node eps st) := by
  intro eps
  induction eps with
  | nil => intro st; trivial
  | cons ep rest ih =>
      intro st
      by_cases hn : epName ep = ""
      · rw [epFixed, if_pos hn]; trivial
      · rw [epFixed, if_neg hn]
        rw [unregister_endpoints, if_neg hn]
        refine ⟨fun v hv => ?_, ih (unregOneEndpoint st app node ep)⟩
        exact unregOneEndpoint_fixed st app node ep v
          (unregister_endpoints_mono app node rest
            (unregOneEndpoint st app node ep) (app, epName ep) v hv)

/-- The loop is the identity on a store already settled for its list. -/
lemma unregister_endpoints_id (app node : String) :
    ∀ (eps : List Endpoint) (st : EpStore),
      epFixed app node eps st → unregister_endpoints app node eps st = st := by
  intro eps
  induction eps with
  | nil => intro st _; rfl
  | cons ep rest ih =>
      intro st hfix
      by_cases hn : epName ep = ""
      · rw [unregister_endpoints, if_pos hn]
      · rw [epFixed, if_neg hn] at hfix
        rw [unregister_endpoints, if_neg hn,
          unregOneEndpoint_id st app node ep hfix.1]
        exact ih st hfix.2

/-- A Zookeeper state is settled for an app when reaping it again would
change nothing: either its manifest is gone, or neither its running record
nor any of its reachable endpoint records still matches this node. -/
def appFixed (node : String) (z : Zk) (app : String) : Prop :=
  match assocGet z.scheduled app with
  | none => True
  | some m =>
      (∀ v, assocGet z.running app = some v → v ≠ node) ∧
        epFixed app node m.endpoints z.endpoints

/-- Frame: `reapApp` touches only the running and endpoint stores. -/
lemma reapApp_fields (node : String) (z : Zk) (app : String) :
    (reapApp node z app).servers = z.servers ∧
      (reapApp node z app).placement = z.placement ∧
      (reapApp node z app).scheduled = z.scheduled ∧
      (reapApp node z app).server_presence = z.server_presence := by
  unfold reapApp
  cases hg : assocGet z.scheduled app with
  | none => simp [hg]
  | some m => simp [hg]

/-- Deletion only: `reapApp` never adds or rewrites running entries. -/
lemma reapApp_running_mono (node : String) (z : Zk) (app : String)
    (k v : String) (h : assocGet (reapApp node z app).running k = some v) :
    assocGet z.running k = some v := by
  unfold reapApp at h
  cases hg : assocGet z.scheduled app with
  | none => simp only [hg] at h; exact h
  | some m =>
      simp only [hg] at h
      exact unregister_running_mono z.running app node k v h

/-- Deletion only: `reapApp` never adds or rewrites endpoint entries. -/
lemma reapApp_endpoints_mono (node : String) (z : Zk) (app : String)
    (k : String × String) (v : String)
    (h : assocGet (reapApp node z app).endpoints k = some v) :
    assocGet z.endpoints k = some v := by
  unfold reapApp at h
  cases hg : assocGet z.scheduled app with
  | none => simp only [hg] at h; exact h
  | some m =>
      simp only [hg] at h
      exact unregister_endpoints_mono app node m.endpoints z.endpoints k v h

/-- Reaping an app settles the state for that app. -/
lemma reapApp_fixed (node : String) (z : Zk) (app : String) :
    appFixed node (reapApp node z app) app := by
  unfold appFixed
  rw [(reapApp_fields node z app).2.2.1]
  cases hg : assocGet z.scheduled app with
  | none => trivial
  | some m =>
      have hz : reapApp node z app =
          { z with
            running := unregister_running z.running app node,
            endpoints := unregister_endpoints app node m.endpoints z.endpoints } := by
        unfold reapApp; simp only [hg]
      rw [hz]
      exact ⟨fun v hv => unregister_running_fixed z.running app node v hv,
        unregister_endpoints_fixed app node m.endpoints z.endpoints⟩

/-- Settledness for one app survives reaping any app. -/
lemma reapApp_preserves_fixed (node : String) (z : Zk) (a b : String)
    (h : appFixed node z a) : appFixed node (reapApp node z b) a := by
  unfold appFixed at h ⊢
  rw [(reapApp_fields node z b).2.2.1]
  cases hg : assocGet z.scheduled a with
  | none => trivial
  | some m =>
      simp only [hg] at h
      exact ⟨fun v hv => h.1 v (reapApp_running_mono node z b a v hv),
        epFixed_mono a node m.endpoints z.endpoints
          (reapApp node z b).endpoints
          (fun k v hv => reapApp_endpoints_mono node z b k v hv) h.2⟩

/-- Reaping an already-settled app changes nothing. -/
lemma reapApp_id (node : String) (z : Zk) (app : String)
    (h : appFixed node z app) : reapApp node z app = z := by
  unfold appFixed at h
  unfold reapApp
  cases hg : assocGet z.scheduled app with
  | none => simp only [hg]
  | some m =>
      simp only [hg] at h ⊢
      rw [unregister_running_id z.running app node h.1,
        unregister_endpoints_id app node m.endpoints z.endpoints h.2]

/-- The reaping fold touches only the running and endpoint stores. -/
lemma foldl_reapApp_fields (node : String) :
    ∀ (apps : List String) (z : Zk),
      (apps.foldl (reapApp node) z).servers = z.servers ∧
        (apps.foldl (reapApp node) z).placement = z.placement ∧
        (apps.foldl (reapApp node) z).scheduled = z.scheduled ∧
        (apps.foldl (reapApp node) z).server_presence = z.server_presence := by
  intro apps
  induction apps with
  | nil => intro z; exact ⟨rfl, rfl, rfl, rfl⟩
  | cons a rest ih =>
      intro z
      rw [List.foldl_cons]
      obtain ⟨h1, h2, h3, h4⟩ := ih (reapApp node z a)
      obtain ⟨g1, g2, g3, g4⟩ := reapApp_fields node z a
      exact ⟨h1.trans g1, h2.trans g2, h3.trans g3, h4.trans g4⟩

/-- Settledness for one app survives the whole reaping fold. -/
lemma foldl_reapApp_preserves_fixed (node : String) (a : String) :
    ∀ (apps : List String) (z : Zk), appFixed node z a →
      appFixed node (apps.foldl (reapApp node) z) a := by
  intro apps
  induction apps with
  | nil => intro z h; exact h
  | cons b rest ih =>
      intro z h
      rw [List.foldl_cons]
      exact ih (reapApp node z b) (reapApp_preserves_fixed node z a b h)

/-- After the reaping fold, the state is settled for every app in the
list. -/
lemma foldl_reapApp_fixed (node : String) :
    ∀ (apps : List String) (z : Zk) (a : String), a ∈ apps →
      appFixed node (apps.foldl (reapApp node) z) a := by
  intro apps
  induction apps with
  | nil => intro z a ha; simp at ha
  | cons b rest ih =>
      intro z a ha
      rw [List.foldl_cons]
      rcases List.mem_cons.mp ha with rfl | ha'
      · exact foldl_reapApp_preserves_fixed node a rest (reapApp node z a)
          (reapApp_fixed node z a)
      · exact ih (reapApp node z b) a ha'

/-- The reaping fold is the identity on a state settled for every app in
the list. -/
lemma foldl_reapApp_id (node : String) :
    ∀ (apps : List String) (z : Zk),
      (∀ a ∈ apps, appFixed node z a) → apps.foldl (reapApp node) z = z := by
  intro apps
  induction apps with
  | nil => intro z _; rfl
  | cons b rest ih =>
      intro z h
      rw [List.foldl_cons, reapApp_id node z b (h b (List.mem_cons_self b rest))]
      exact ih z fun a ha => h a (List.mem_cons_of_mem b ha)

/-- Congruence: `appFixed` only looks at the scheduled, running and endpoint stores. -/
lemma appFixed_congr (node : String) (z z' : Zk) (a : String)
    (hs : z'.scheduled = z.scheduled) (hr : z'.running = z.running)
    (he : z'.endpoints = z.endpoints) (h : appFixed node z a) :
    appFixed node z' a := by
  unfold appFixed at h ⊢
  rw [hs, hr, he]
  exact h

/-- When the node's `/servers` record exists and its placement is readable,
`kill_node` reaps every placed app and filters the node out of the
`/server.presence` store. -/
lemma kill_node_step (z : Zk) (node : String) (apps : List String)
    (hin : node ∈ z.servers)
    (hplace : assocGet z.placement node = some apps) :
    kill_node z node =
      .ok { apps.foldl (reapApp node) z with
            server_presence := (apps.foldl (reapApp node) z).server_presence.filter
              (fun n => decide (n ≠ node)) } := by
  unfold kill_node
  rw [if_pos hin, hplace]

/-- C7: `kill_node` is a no-op when the node's `/servers` record is absent;
otherwise (with the placement listing readable) it returns normally even
when workload manifests are missing, removes the node's `/server.presence`
record, leaves the `/servers`, placement and scheduled stores untouched,
and leaves no placed workload's running record pointing at the node; and a
second call on the state the first call produced returns that state
unchanged — a pure no-op. -/
theorem C7_kill_node (z : Zk) (node : String) :
    (node ∉ z.servers → kill_node z node = .ok z) ∧
    (∀ apps, node ∈ z.servers → assocGet z.placement node = some apps →
      ∃ z', kill_node z node = .ok z' ∧ node ∉ z'.server_presence ∧
        z'.servers = z.servers ∧ z'.placement = z.placement ∧
        z'.scheduled = z.scheduled ∧
        (∀ a ∈ apps, ∀ m, assocGet z.scheduled a = some m →
          ∀ v, assocGet z'.running a = some v → v ≠ node)) ∧
    (∀ z', kill_node z node = .ok z' → kill_node z' node = .ok z') := by
  refine ⟨fun hout => by simp [kill_node, hout],
    fun apps hin hplace => ?_, fun z' hk => ?_⟩
  · have hkn := kill_node_step z node apps hin hplace
    obtain ⟨h1, h2, h3, h4⟩ := foldl_reapApp_fields node apps z
    refine ⟨_, hkn, ?_, h1, h2, h3, fun a ha m hm v hv => ?_⟩
    · simp [List.mem_filter]
    · have hfix := foldl_reapApp_fixed node apps z a ha
      unfold appFixed at hfix
      rw [h3, hm] at hfix
      exact hfix.1 v hv
  · by_cases hin : node ∈ z.servers
    · cases hplace : assocGet z.placement node with
      | none =>
          have herr : kill_node z node = .error () := by
            unfold kill_node
            rw [if_pos hin, hplace]
          rw [herr] at hk
          cases hk
      | some apps =>
          have hkn := kill_node_step z node apps hin hplace
          rw [hkn] at hk
          injection hk with hz'
          subst hz'
          obtain ⟨h1, h2, h3, h4⟩ := foldl_reapApp_fields node apps z
          have hin' : node ∈
              ({ apps.foldl (reapApp node) z with
                 server_presence :=
                   (apps.foldl (reapApp node) z).server_presence.filter
                     (fun n => decide (n ≠ node)) } : Zk).servers := by
            rw [show ({ apps.foldl (reapApp node) z with
                server_presence :=
                  (apps.foldl (reapApp node) z).server_presence.filter
                    (fun n => decide (n ≠ node)) } : Zk).servers =
                (apps.foldl (reapApp node) z).servers from rfl, h1]
            exact hin
          have hplace' : assocGet
              ({ apps.foldl (reapApp node) z with
                 server_presence :=
                   (apps.foldl (reapApp node) z).server_presence.filter
                     (fun n => decide (n ≠ node)) } : Zk).placement node =
              some apps := by
            rw [show ({ apps.foldl (reapApp node) z with
                server_presence :=
                  (apps.foldl (reapApp node) z).server_presence.filter
                    (fun n => decide (n ≠ node)) } : Zk).placement =
                (apps.foldl (reapApp node) z).placement from rfl, h2]
            exact hplace
          have hfold : apps.foldl (reapApp node)
              ({ apps.foldl (reapApp node) z with
                 server_presence :=
                   (apps.foldl (reapApp node) z).server_presence.filter
                     (fun n => decide (n ≠ node)) } : Zk) =
              { apps.foldl (reapApp node) z with
                server_presence :=
                  (apps.foldl (reapApp node) z).server_presence.filter
                    (fun n => decide (n ≠ node)) } := by
            apply foldl_reapApp_id
            intro a ha
            exact appFixed_congr node (apps.foldl (reapApp node) z) _ a rfl rfl
              rfl (foldl_reapApp_fixed node apps z a ha)
          have hstep := kill_node_step
            ({ apps.foldl (reapApp node) z with
               server_presence :=
                 (apps.foldl (reapApp node) z).server_presence.filter
                   (fun n => decide (n ≠ node)) } : Zk) node apps hin' hplace'
          rw [hfold] at hstep
          rw [hstep]
          have hsp : ({ apps.foldl (reapApp node) z with
              server_presence :=
                (apps.foldl (reapApp node) z).server_presence.filter
                  (fun n => decide (n ≠ node)) } : Zk).server_presence.filter
                (fun n => decide (n ≠ node)) =
              ({ apps.foldl (reapApp node) z with
                 server_presence :=
                   (apps.foldl (reapApp node) z).server_presence.filter
                     (fun n => decide (n ≠ node)) } : Zk).server_presence := by
            show ((apps.foldl (reapApp node) z).server_presence.filter
                (fun n => decide (n ≠ node))).filter (fun n => decide (n ≠ node)) =
              (apps.foldl (reapApp node) z).server_presence.filter
                (fun n => decide (n ≠ node))
            rw [List.filter_filter]
            simp only [Bool.and_self]
          rw [hsp]
    · have hid : kill_node z node = .ok z := by simp [kill_node, hin]
      rw [hid] at hk
      injection hk with hz'
      subst hz'
      exact hid

/-- Witness for C7: one node hosting one app with a running record and one
endpoint; reaping returns normally, clears the presence record from the
node, and leaves no running record pointing at it. -/
theorem C7_witness :
    ∃ z', kill_node ⟨["n"], [("n", ["a"])],
        [("a", ⟨[⟨some "ep", some 80, 1⟩]⟩)], [("a", "n")],
        [(("a", "ep"), "n:1")], ["n"]⟩ "n" = .ok z' ∧
      "n" ∉ z'.server_presence ∧
      z'.servers = (⟨["n"], [("n", ["a"])],
        [("a", ⟨[⟨some "ep", some 80, 1⟩]⟩)], [("a", "n")],
        [(("a", "ep"), "n:1")], ["n"]⟩ : Zk).servers ∧
      z'.placement = (⟨["n"], [("n", ["a"])],
        [("a", ⟨[⟨some "ep", some 80, 1⟩]⟩)], [("a", "n")],
        [(("a", "ep"), "n:1")], ["n"]⟩ : Zk).placement ∧
      z'.scheduled = (⟨["n"], [("n", ["a"])],
        [("a", ⟨[⟨some "ep", some 80, 1⟩]⟩)], [("a", "n")],
        [(("a", "ep"), "n:1")], ["n"]⟩ : Zk).scheduled ∧
      (∀ a ∈ ["a"], ∀ m, assocGet (⟨["n"], [("n", ["a"])],
          [("a", ⟨[⟨some "ep", some 80, 1⟩]⟩)], [("a", "n")],
          [(("a", "ep"), "n:1")], ["n"]⟩ : Zk).scheduled a = some m →
        ∀ v, assocGet z'.running a = some v → v ≠ "n") :=
  (C7_kill_node ⟨["n"], [("n", ["a"])],
    [("a", ⟨[⟨some "ep", some 80, 1⟩]⟩)], [("a", "n")],
    [(("a", "ep"), "n:1")], ["n"]⟩ "n").2.1 ["a"] (by decide) rfl

end Treadmill
